import Mathlib

/-!
Verification of the task-orchestration logic of `noxfile.py`.

Each nox session is embedded as a pure Lean function from the invocation
inputs (configuration, positional arguments, an environment snapshot) and an
oracle describing the behaviour of the external commands, to the ordered list
of executed external-command records plus the session's final outcome.
-/

/-- An environment is an association list of variable bindings (Python dict
with string keys/values, unique keys). -/
abbrev Env := List (String × String)

/-- Lookup of an environment variable (`d.get(k)` / `os.getenv`). -/
def envGet : Env → String → Option String
  | [], _ => none
  | (k', v') :: rest, k => if k' = k then some v' else envGet rest k

/-- Assignment `d[k] = v` on an environment (replaces any existing binding). -/
def envSet : Env → String → String → Env
  | [], k, v => [(k, v)]
  | (k', v') :: rest, k, v =>
    if k' = k then envSet rest k v else (k', v') :: envSet rest k v

/-- Python `base.update(over)`: fold the overlay bindings into the base environment. -/
def envUpdate (base : Env) : Env → Env
  | [] => base
  | (k, v) :: rest => envUpdate (envSet base k v) rest

/-- One external command to execute: executable name, argument list, and the
full environment the process is spawned with. -/
structure Step where
  exe : String
  args : List String
  env : Env
deriving DecidableEq

/-- Behaviour of one external command: either the executable could not be
found/started at all, or it ran to completion with an exit code. -/
inductive RunResult where
  | launchFail
  | exited (code : Nat)
deriving DecidableEq

/-- The external world: what happens when a given executable is spawned with
given arguments. -/
abbrev Oracle := String → List String → RunResult

/-- Result of one completed Step: the step and its exit status. -/
structure OutcomeRecord where
  step : Step
  result : RunResult
deriving DecidableEq

/-- Control-flow fault of an invocation: `commandFailed` models nox's
`CommandFailed` (a step governed by the fatal policy exited non-zero, or a
session re-raised after accumulating failures); `launchError` models the
spec's `LaunchError` (executable missing / not startable). -/
inductive Fault where
  | commandFailed
  | launchError
deriving DecidableEq

/-- Final result of one session invocation: executed step records in order,
and `none` for success or the fault that terminated/failed the session. -/
structure SessionResult where
  trace : List OutcomeRecord
  fault : Option Fault
deriving DecidableEq

def toSR (p : List OutcomeRecord × Option Fault) : SessionResult := ⟨p.1, p.2⟩

/-- Modelled from the spec: the step-execution primitive (`execute_step`).
The repository's `noxfile.py` delegates process spawning to the third-party
nox library (`session.run`), which is not part of the repository, so this
primitive is modelled from the spec's §4.1: a command that runs to completion
always yields an `OutcomeRecord` carrying its exit code (a non-zero exit is
recorded, never a fault by itself), and only a launch failure (executable
missing or not startable) yields a `LaunchError` fault. -/
def execute_step (s : Step) (r : RunResult) : Except Fault OutcomeRecord :=
  match r with
  | RunResult.launchFail => Except.error Fault.launchError
  | RunResult.exited n => Except.ok ⟨s, RunResult.exited n⟩

/-- Sequential execution of steps under the fatal failure policy (a plain
sequence of `session.run` calls in the noxfile): each step runs in order; a
non-zero exit raises `CommandFailed` immediately, so later steps never run;
a launch failure aborts with `launchError` (and records nothing for that
step, since the step never completed). -/
def runSeq (o : Oracle) (tr : List OutcomeRecord) : List Step → List OutcomeRecord × Option Fault
  | [] => (tr, none)
  | s :: rest =>
    match execute_step s (o s.exe s.args) with
    | Except.error f => (tr, some f)
    | Except.ok r =>
      if r.result = RunResult.exited 0 then runSeq o (tr ++ [r]) rest
      else (tr ++ [r], some Fault.commandFailed)

/-- Index of the first step of a declared sequence whose command does not
exit with code 0, if any. -/
def firstFailIdx (o : Oracle) : List Step → Option Nat
  | [] => none
  | s :: rest =>
    if o s.exe s.args ≠ RunResult.exited 0 then some 0
    else (firstFailIdx o rest).map (· + 1)

/-- Python truthiness helper for `d.get(k) or default` on string values:
`None` and the empty string are falsy. -/
def pyOr (v : Option String) (d : String) : String :=
  match v with
  | none => d
  | some s => if s = "" then d else s

/-- Python `str()` of a boolean. -/
def pyStr (b : Bool) : String := if b then "True" else "False"

/-- Python `s.startswith(pre)`. -/
def pyStartsWith (s pre : String) : Bool := pre.data.isPrefixOf s.data

/-- Helper for `pySplit`: walk the characters, cutting at each separator. -/
def pySplitAux (sep : Char) : List Char → List Char → List String
  | [], acc => [String.mk acc.reverse]
  | c :: rest, acc =>
    if c = sep then String.mk acc.reverse :: pySplitAux sep rest []
    else pySplitAux sep rest (c :: acc)

/-- Python `s.split(sep)` for a one-character separator (as used by the
noxfile for `","`): never returns an empty list; splitting the empty string
gives `[""]`. -/
def pySplit (s : String) (sep : Char) : List String := pySplitAux sep s.data []

/-- Python `f"{xs}"` for a non-empty list of strings, as used by the noxfile's
`f"{session.posargs or 'tests'}"` (repr of a list; quote-escaping of quotes
inside elements is not modelled, no claim depends on it). -/
def pyReprList (xs : List String) : String :=
  "[" ++ String.intercalate ", " (xs.map (fun s => "'" ++ s ++ "'")) ++ "]"

/-- Module-level configuration of the noxfile: environment switches read
when the module loads (`_NOX_TOX_CALLS`, `_NOX_IN_CI`, venv detection), the kind of nox
virtualenv backing the session, values parsed from `pyproject.toml`
(`tox_skip_sdist`, `tox_python_versions`, `tox_docs_builders`, package name),
and the path/interpreter constants the noxfile computes
(`COV_CACHE_DIR`, `JUNIT_CACHE_DIR`, venv dirs, interpreter name). -/
structure NoxConfig where
  inVenv : Bool
  inCI : Bool
  toxCalls : Bool
  passthroughVenv : Bool
  toxSkipSdist : Bool
  toxPythonVersions : String
  toxDocsBuilders : String
  packageName : String
  covCacheDir : String
  junitCacheDir : String
  venvTmpDir : String
  venvSitePackages : String
  pythonName : String
deriving DecidableEq

/-- The two installation commands performed by the monkey-patched
`Session.poetry_install`: `session.install("poetry>=1", env=_env)` (a
`python -m pip install` run) followed by `poetry install` with the flag
handling of the source (`--no-root`, `--no-dev`, `--extras`, `--ansi`).
The source's isinstance safety hurdle cannot fire for the virtualenv kinds
modelled here (`passthroughVenv` covers nox's `PassthroughEnv`). -/
def poetryInstallSteps (cfg : NoxConfig) (osenv senv : Env) (extras : Option String)
    (no_dev no_root require_venv : Bool) : List Step :=
  let useReq := require_venv || cfg.passthroughVenv
  let instEnv :=
    if useReq then
      [("PIP_DISABLE_VERSION_CHECK", "1"), ("PIP_REQUIRE_VIRTUALENV", "true")]
    else [("PIP_DISABLE_VERSION_CHECK", "1")]
  let extraDeps :=
    match extras with
    | some s => if s = "" then [] else ["--extras", s]
    | none => []
  let noDevFlag := if no_dev then ["--no-dev"] else []
  let noRootFlag := if no_root then ["--no-root"] else []
  let poetryArgs :=
    if envGet osenv "_NOX_POETRY_COLOR" = some "true" then ["--ansi"] else []
  let poetryEnv :=
    if useReq then envUpdate senv [("PIP_REQUIRE_VIRTUALENV", "true")] else senv
  [ ⟨"python", ["-m", "pip", "install", "poetry>=1"], envUpdate senv instEnv⟩,
    ⟨"poetry", "install" :: (poetryArgs ++ (noRootFlag ++ noDevFlag ++ extraDeps)), poetryEnv⟩ ]

/-- The `_tox_caller` helper: install tox via poetry, set `_TOX_SKIP_SDIST` on the
session environment, then run `tox -e <tox_env> *posargs`. -/
def _tox_caller (cfg : NoxConfig) (o : Oracle) (osenv : Env) (posargs : List String)
    (tox_env : String) : List OutcomeRecord × Option Fault :=
  let senv' := envSet osenv "_TOX_SKIP_SDIST" (pyStr cfg.toxSkipSdist)
  runSeq o []
    (poetryInstallSteps cfg osenv osenv (some "tox") cfg.inCI true false
      ++ [⟨"tox", "-e" :: tox_env :: posargs, senv'⟩])

/-- Declared step sequence of the `package` session's direct (venv) branch:
optional poetry install of the `poetry twine` extras, then
`poetry build -vvv`, then `twine check dist/*`. -/
def packageDecl (cfg : NoxConfig) (osenv : Env) (posargs : List String) : List Step :=
  (if "skip_install" ∈ posargs then []
   else poetryInstallSteps cfg osenv osenv (some "poetry twine")
          (cfg.toxCalls || cfg.inCI) true false)
  ++ [ ⟨"poetry", ["build", "-vvv"], osenv⟩,
       ⟨"twine", ["check", "dist/*"], osenv⟩ ]

/-- The `package` session. -/
def package (cfg : NoxConfig) (o : Oracle) (osenv : Env) (posargs : List String) : SessionResult :=
  if !cfg.inVenv ∨ "tox" ∈ posargs then
    toSR (_tox_caller cfg o osenv (posargs.erase "tox") "package")
  else
    toSR (runSeq o [] (packageDecl cfg osenv posargs))

/-- The `test_code` session.  Note two source quirks kept here: the tox branch
does not remove the `"tox"` posarg before delegating, and the final pytest
argument is the Python f-string of the posargs list when it is non-empty.
`session.python` is `None` for these sessions (no python given to
`@nox.session`), hence the literal `junit.None.xml`. -/
def test_code (cfg : NoxConfig) (o : Oracle) (osenv : Env) (posargs : List String) : SessionResult :=
  if !cfg.inVenv ∨ "tox" ∈ posargs then
    toSR (_tox_caller cfg o osenv posargs cfg.toxPythonVersions)
  else
    let skip := "skip_install" ∈ posargs
    let install :=
      if skip then []
      else
        poetryInstallSteps cfg osenv osenv (some "testing") (cfg.toxCalls || cfg.inCI) true false
          ++ (if !cfg.toxCalls then [⟨"python", ["-m", "pip", "install", "."], osenv⟩] else [])
    let posargs' := if skip then posargs.erase "skip_install" else posargs
    let senv' := envSet osenv "COVERAGE_FILE" (cfg.covCacheDir ++ "/.coverage." ++ cfg.pythonName)
    let pytestArgs :=
      [ "--basetemp=" ++ cfg.venvTmpDir,
        "--junitxml=" ++ cfg.junitCacheDir ++ "/junit.None.xml",
        "--cov=" ++ cfg.venvSitePackages ++ "/" ++ cfg.packageName,
        "--cov-fail-under=" ++ pyOr (envGet senv' "MIN_COVERAGE") "100",
        "--numprocesses=" ++ pyOr (envGet senv' "PYTEST_XDIST_N") "auto",
        if posargs' = [] then "tests" else pyReprList posargs' ]
    toSR (runSeq o [] (install ++ [⟨"pytest", pytestArgs, senv'⟩]))

/-- The `_coverage` helper (jobs `"merge"`, `"report"`, `"all"`): optional
install, set `COVERAGE_FILE` on the session environment, run the merge steps
fatally, then for report jobs run `coverage report` with its failure caught
and re-raised only after `diff-cover` has also run.  The source also removes
the processed `skip_install` posarg in the skip branch; the list is not
consulted again in this helper, so that removal has no further effect. -/
def _coverage (cfg : NoxConfig) (o : Oracle) (osenv : Env) (posargs : List String)
    (job : String) : SessionResult :=
  let install :=
    if "skip_install" ∈ posargs then []
    else
      let extras := if job = "report" ∨ job = "all" then "coverage diff-cover" else "coverage"
      poetryInstallSteps cfg osenv osenv (some extras) (cfg.toxCalls || cfg.inCI) true false
  let senv' := envSet osenv "COVERAGE_FILE" (cfg.covCacheDir ++ "/.coverage")
  let mergeSteps :=
    if job = "merge" ∨ job = "all" then
      [ ⟨"coverage", ["combine"], senv'⟩,
        ⟨"coverage", ["xml", "-o", cfg.covCacheDir ++ "/coverage.xml"], senv'⟩,
        ⟨"coverage", ["html", "-d", cfg.covCacheDir ++ "/htmlcov"], senv'⟩ ]
    else []
  let r1 := runSeq o [] (install ++ mergeSteps)
  if job = "report" ∨ job = "all" then
    match r1 with
    | (tr, some f) => ⟨tr, some f⟩
    | (tr, none) =>
      let minCov := pyOr (envGet senv' "MIN_COVERAGE") "100"
      let reportStep : Step := ⟨"coverage", ["report", "-m", "--fail-under=" ++ minCov], senv'⟩
      match execute_step reportStep (o reportStep.exe reportStep.args) with
      | Except.error f => ⟨tr, some f⟩
      | Except.ok r₁ =>
        let raiseError := r₁.result ≠ RunResult.exited 0
        let diffStep : Step :=
          ⟨"diff-cover",
            [ "--compare-branch=" ++ pyOr (envGet senv' "DIFF_AGAINST") "origin/master",
              "--ignore-staged", "--ignore-unstaged",
              "--fail-under=" ++ pyOr (envGet senv' "MIN_DIFF_COVERAGE") "100",
              "--diff-range-notation=" ++ pyOr (envGet senv' "DIFF_RANGE_NOTATION") "..",
              cfg.covCacheDir ++ "/coverage.xml" ], senv'⟩
        match execute_step diffStep (o diffStep.exe diffStep.args) with
        | Except.error f => ⟨tr ++ [r₁], some f⟩
        | Except.ok r₂ =>
          if r₂.result = RunResult.exited 0 then
            ⟨tr ++ [r₁, r₂], if raiseError then some Fault.commandFailed else none⟩
          else ⟨tr ++ [r₁, r₂], some Fault.commandFailed⟩
  else
    ⟨r1.1, r1.2⟩

/-- The `coverage_merge` session. -/
def coverage_merge (cfg : NoxConfig) (o : Oracle) (osenv : Env) (posargs : List String) : SessionResult :=
  if !cfg.inVenv ∨ "tox" ∈ posargs then
    toSR (_tox_caller cfg o osenv (posargs.erase "tox") "coverage_merge")
  else _coverage cfg o osenv posargs "merge"

/-- The `coverage_report` session. -/
def coverage_report (cfg : NoxConfig) (o : Oracle) (osenv : Env) (posargs : List String) : SessionResult :=
  if !cfg.inVenv ∨ "tox" ∈ posargs then
    toSR (_tox_caller cfg o osenv (posargs.erase "tox") "coverage_report")
  else _coverage cfg o osenv posargs "report"

/-- The `coverage` session. -/
def coverage (cfg : NoxConfig) (o : Oracle) (osenv : Env) (posargs : List String) : SessionResult :=
  if !cfg.inVenv ∨ "tox" ∈ posargs then
    toSR (_tox_caller cfg o osenv (posargs.erase "tox") "coverage")
  else _coverage cfg o osenv posargs "all"

/-- The accumulating hook loop of `pre_commit`: one `pre-commit run
--all-files <base args> <hook>` per hook; a `CommandFailed` from a hook is
caught and the hook name appended to the error list, so later hooks still
run; a launch failure is not a `CommandFailed` in this model (see
`execute_step`) and aborts.  Returns the records, the accumulated
`error_hooks`, and the aborting fault if any. -/
def hookLoop (o : Oracle) (env : Env) (base : List String) (tr : List OutcomeRecord)
    (errs : List String) : List String → List OutcomeRecord × List String × Option Fault
  | [] => (tr, errs, none)
  | h :: rest =>
    match execute_step ⟨"pre-commit", base ++ [h], env⟩ (o "pre-commit" (base ++ [h])) with
    | Except.error f => (tr, errs, some f)
    | Except.ok r =>
      if r.result = RunResult.exited 0 then hookLoop o env base (tr ++ [r]) errs rest
      else hookLoop o env base (tr ++ [r]) (errs ++ [h]) rest

/-- Direct (venv) branch of the `pre_commit` session: optional install, the
show-diff / SKIP-env computation, extraction of `SKIP=`/`HOOKS=` posargs,
removal of the processed posargs, then the accumulating hook loop.  Returns
the records, the `error_hooks` list (the failure detail the session logs when
explicit hooks were requested), and the aborting fault if any. -/
def pre_commit_core (cfg : NoxConfig) (o : Oracle) (osenv : Env) (posargs : List String)
    (interactive : Bool) : List OutcomeRecord × List String × Option Fault :=
  let install :=
    if "skip_install" ∈ posargs then []
    else
      poetryInstallSteps cfg osenv osenv (some "pre-commit testing docs poetry nox")
        (cfg.toxCalls || cfg.inCI) cfg.toxCalls false
  match runSeq o [] install with
  | (tr, some f) => (tr, [], some f)
  | (tr, none) =>
    let showDiffCond :=
      (interactive && decide ("diff" ∈ posargs))
        || (!interactive && !decide ("nodiff" ∈ posargs))
    let show_diff := if showDiffCond then ["--show-diff-on-failure"] else []
    let env0 : Env := if showDiffCond then [] else [("SKIP", "identity")]
    let skip := (posargs.find? (fun a => pyStartsWith a "SKIP=")).getD ""
    let env1 :=
      if skip = "" then env0
      else [("SKIP", skip.drop 5 ++ "," ++ (envGet env0 "SKIP").getD "")]
    let hooks_arg := (posargs.find? (fun a => pyStartsWith a "HOOKS=")).getD ""
    let posargs' :=
      ((((posargs.erase "skip_install").erase "diff").erase "nodiff").erase skip).erase hooks_arg
    let hooks := if hooks_arg = "" then [""] else pySplit (hooks_arg.drop 6) ','
    let base := ["run", "--all-files"] ++ show_diff ++ posargs'
    hookLoop o (envUpdate osenv env1) base tr [] hooks

/-- The `pre_commit` session: the tox branch, or the direct branch followed by
the final `if error_hooks: raise CommandFailed`. -/
def pre_commit (cfg : NoxConfig) (o : Oracle) (osenv : Env) (posargs : List String)
    (interactive : Bool) : SessionResult :=
  if !cfg.inVenv ∨ "tox" ∈ posargs then
    toSR (_tox_caller cfg o osenv (posargs.erase "tox") "pre_commit")
  else
    match pre_commit_core cfg o osenv posargs interactive with
    | (tr, _, some f) => ⟨tr, some f⟩
    | (tr, errs, none) => ⟨tr, if errs = [] then none else some Fault.commandFailed⟩

/-- The `docs` session.  Source quirk kept: the removal of the processed
posargs (`skip_install`, `autobuild`, `ab`) happens BEFORE the
`"skip_install" not in session.posargs` check, so a single `skip_install`
posarg has already been removed when the check runs and the install is
performed anyway (the "Skipping install step." branch is unreachable unless
the flag was passed twice). -/
def docs (cfg : NoxConfig) (o : Oracle) (osenv : Env) (posargs : List String) : SessionResult :=
  if !cfg.inVenv ∨ "tox" ∈ posargs then
    toSR (_tox_caller cfg o osenv (posargs.erase "tox") "docs")
  else
    let autob := "autobuild" ∈ posargs ∨ "ab" ∈ posargs
    let extras := if autob then "docs sphinx-autobuild" else "docs"
    let cmd := if autob then "sphinx-autobuild" else "sphinx-build"
    let args :=
      ["-b", "html", "-aE", "docs/source", "docs/build/html"]
        ++ (if autob then ["--open-browser"] else [])
    let posargs' := ((posargs.erase "skip_install").erase "autobuild").erase "ab"
    let install :=
      if "skip_install" ∈ posargs' then []
      else
        poetryInstallSteps cfg osenv osenv (some extras) (cfg.toxCalls || cfg.inCI)
          cfg.toxCalls false
    toSR (runSeq o [] (install ++ [⟨cmd, args ++ posargs', osenv⟩]))

/-- The `test_docs` session (one parametrized instance per sphinx builder). -/
def test_docs (cfg : NoxConfig) (o : Oracle) (osenv : Env) (posargs : List String)
    (builder : String) : SessionResult :=
  if !cfg.inVenv ∨ "tox" ∈ posargs then
    toSR (_tox_caller cfg o osenv (posargs.erase "tox") cfg.toxDocsBuilders)
  else
    let skip := "skip_install" ∈ posargs
    let install :=
      if skip then []
      else
        poetryInstallSteps cfg osenv osenv (some "docs") (cfg.toxCalls || cfg.inCI)
          cfg.toxCalls false
    let posargs' := if skip then posargs.erase "skip_install" else posargs
    let args :=
      ["-b", builder, "-aE", "-v", "-nW", "--keep-going", "docs/source",
        "docs/build/test/" ++ builder]
        ++ (if builder = "confluence" then ["-t", "builder_confluence"] else [])
        ++ posargs'
    toSR (runSeq o [] (install ++ [⟨"sphinx-build", args, osenv⟩]))

/-- The embedded tasks (the orchestration-relevant sessions of the noxfile). -/
inductive NoxTask where
  | package
  | test_code
  | coverage_merge
  | coverage_report
  | coverage
  | pre_commit
  | docs
  | test_docs (builder : String)
deriving DecidableEq

/-- Invoke a task: dispatch from the task name to its session function. -/
def invoke (t : NoxTask) (cfg : NoxConfig) (o : Oracle) (osenv : Env)
    (posargs : List String) (interactive : Bool) : SessionResult :=
  match t with
  | NoxTask.package => package cfg o osenv posargs
  | NoxTask.test_code => test_code cfg o osenv posargs
  | NoxTask.coverage_merge => coverage_merge cfg o osenv posargs
  | NoxTask.coverage_report => coverage_report cfg o osenv posargs
  | NoxTask.coverage => coverage cfg o osenv posargs
  | NoxTask.pre_commit => pre_commit cfg o osenv posargs interactive
  | NoxTask.docs => docs cfg o osenv posargs
  | NoxTask.test_docs b => test_docs cfg o osenv posargs b

/-- Number of installation commands the install-skip flag suppresses for each
task (see the C5 analysis: `docs` removes the flag before checking it, so it
suppresses nothing there; `test_code` additionally self-installs the package
when nox is not driven by tox). -/
def installCount (t : NoxTask) (cfg : NoxConfig) : Nat :=
  match t with
  | NoxTask.docs => 0
  | NoxTask.test_code => if cfg.toxCalls then 2 else 3
  | _ => 2

/-- A dependency-installation command: a `python -m pip install …` run or a
`poetry install …` run. -/
def isInstallStep (s : Step) : Prop :=
  (s.exe = "python" ∧ s.args.take 3 = ["-m", "pip", "install"])
    ∨ (s.exe = "poetry" ∧ s.args.head? = some "install")

instance (s : Step) : Decidable (isInstallStep s) := by
  unfold isInstallStep; infer_instance

/-- A concrete configuration used by the closed witness/counterexample
theorems: in a venv, not in CI, nox not driven by tox, passthrough venv. -/
def cfg0 : NoxConfig :=
  { inVenv := true, inCI := false, toxCalls := false, passthroughVenv := true,
    toxSkipSdist := true, toxPythonVersions := "python3.9",
    toxDocsBuilders := "test_docs-html", packageName := "python_test",
    covCacheDir := ".coverage_cache", junitCacheDir := ".junit_cache",
    venvTmpDir := ".venv/tmp", venvSitePackages := ".venv/lib/site-packages",
    pythonName := "cpython3.9" }

/-- An external world in which every command launches and exits 0. -/
def oAll : Oracle := fun _ _ => RunResult.exited 0

/-- An external world in which exactly the `pre-commit` run whose final
(hook) argument is `"b"` fails, and everything else succeeds. -/
def oHookB : Oracle := fun exe args =>
  if exe = "pre-commit" ∧ args.getLast? = some "b" then RunResult.exited 1
  else RunResult.exited 0

/-- A second all-success oracle, definitionally different from `oAll` but
pointwise equal to it. -/
def oAllZero : Oracle := fun _ a => RunResult.exited (0 * a.length)

/-- An external world in which exactly `poetry build -vvv` fails (exit 2). -/
def oBuildFail : Oracle := fun exe args =>
  if exe = "poetry" ∧ args = ["build", "-vvv"] then RunResult.exited 2
  else RunResult.exited 0

/-- Looking up a key just assigned yields the assigned value. -/
theorem envGet_envSet_self (e : Env) (k v : String) : envGet (envSet e k v) k = some v := by
  induction e with
  | nil => simp [envSet, envGet]
  | cons p rest ih =>
    obtain ⟨k', v'⟩ := p
    by_cases h : k' = k
    · simpa [envSet, h] using ih
    · simpa [envSet, envGet, h] using ih

/-- Assigning one key leaves lookups of any other key unchanged. -/
theorem envGet_envSet_ne (e : Env) {k k' : String} (v : String) (h : k' ≠ k) :
    envGet (envSet e k v) k' = envGet e k' := by
  induction e with
  | nil => simp [envSet, envGet, Ne.symm h]
  | cons p rest ih =>
    obtain ⟨k₀, v₀⟩ := p
    by_cases h₀ : k₀ = k
    · subst h₀
      rw [envSet, if_pos rfl, ih, envGet, if_neg (Ne.symm h)]
    · rw [envSet, if_neg h₀]
      by_cases h₁ : k₀ = k'
      · rw [envGet, if_pos h₁, envGet, if_pos h₁]
      · rw [envGet, if_neg h₁, ih, envGet, if_neg h₁]

/-- When every step of a fatal sequence exits 0, all steps run in order and
the sequence succeeds. -/
theorem runSeq_success (o : Oracle) (steps : List Step)
    (h : ∀ s ∈ steps, o s.exe s.args = RunResult.exited 0) :
    ∀ tr, runSeq o tr steps = (tr ++ steps.map (fun s => ⟨s, RunResult.exited 0⟩), none) := by
  induction steps with
  | nil => intro tr; simp [runSeq]
  | cons s rest ih =>
    intro tr
    have hs : o s.exe s.args = RunResult.exited 0 := h s (List.mem_cons_self s rest)
    rw [runSeq, hs]
    simp only [execute_step]
    rw [if_pos trivial, ih (fun t ht => h t (List.mem_cons_of_mem s ht))]
    simp

/-- When the first failing step of a fatal sequence has index k (and no step
fails to launch), exactly the steps up to and including it run, and the
sequence raises `CommandFailed`. -/
theorem runSeq_fail (o : Oracle) (steps : List Step)
    (hnl : ∀ s ∈ steps, o s.exe s.args ≠ RunResult.launchFail) :
    ∀ k, firstFailIdx o steps = some k →
      ∀ tr, runSeq o tr steps =
        (tr ++ (steps.take (k + 1)).map (fun s => ⟨s, o s.exe s.args⟩),
          some Fault.commandFailed) := by
  induction steps with
  | nil => intro k hf; simp [firstFailIdx] at hf
  | cons s rest ih =>
    intro k hf tr
    by_cases h0 : o s.exe s.args = RunResult.exited 0
    · rw [firstFailIdx] at hf
      rw [if_neg (by simp [h0])] at hf
      obtain ⟨k', hk', rfl⟩ := Option.map_eq_some'.mp hf
      rw [runSeq, h0]
      simp only [execute_step]
      rw [if_pos trivial, ih (fun t ht => hnl t (List.mem_cons_of_mem s ht)) k' hk']
      simp [h0]
    · have hz : k = 0 := by
        rw [firstFailIdx, if_pos h0] at hf
        exact (Option.some_inj.mp hf).symm
      subst hz
      cases hres : o s.exe s.args with
      | launchFail => exact absurd hres (hnl s (List.mem_cons_self s rest))
      | exited n =>
        have hn : ¬ n = 0 := by
          intro hh
          subst hh
          exact h0 hres
        rw [runSeq, hres]
        simp only [execute_step]
        simp [hn, hres]

/-- A fatal sequence has no failing step exactly when every command exits 0. -/
theorem firstFailIdx_eq_none (o : Oracle) (steps : List Step) :
    firstFailIdx o steps = none ↔ ∀ s ∈ steps, o s.exe s.args = RunResult.exited 0 := by
  induction steps with
  | nil => simp [firstFailIdx]
  | cons s rest ih =>
    by_cases h : o s.exe s.args = RunResult.exited 0 <;>
      simp [firstFailIdx, h, ih]

/-- The accumulating hook loop runs one step per hook regardless of hook
failures, collects the failing hooks in order, and never raises by itself
(launch failures excluded). -/
theorem hookLoop_spec (o : Oracle) (env : Env) (base : List String) (hooks : List String)
    (hnl : ∀ h ∈ hooks, o "pre-commit" (base ++ [h]) ≠ RunResult.launchFail) :
    ∀ tr errs, hookLoop o env base tr errs hooks =
      (tr ++ hooks.map
          (fun h => ⟨⟨"pre-commit", base ++ [h], env⟩, o "pre-commit" (base ++ [h])⟩),
        errs ++ hooks.filter
          (fun h => decide (o "pre-commit" (base ++ [h]) ≠ RunResult.exited 0)),
        none) := by
  induction hooks with
  | nil => intro tr errs; simp [hookLoop]
  | cons h rest ih =>
    intro tr errs
    have ihr := ih (fun t ht => hnl t (List.mem_cons_of_mem h ht))
    cases hres : o "pre-commit" (base ++ [h]) with
    | launchFail => exact absurd hres (hnl h (List.mem_cons_self h rest))
    | exited n =>
      by_cases hn : n = 0
      · subst hn
        rw [hookLoop, hres]
        simp only [execute_step]
        rw [if_pos trivial, ihr]
        simp [hres]
      · rw [hookLoop, hres]
        simp only [execute_step]
        rw [if_neg (by simp [hn]), ihr]
        simp [hres, hn]

/-- Claim C3: executing a Step never raises a control-flow fault when the
external command runs and exits non-zero — that outcome is recorded in the
Step's OutcomeRecord only — and a fault arises exactly when the executable
cannot be found or started at all. -/
theorem claimC3 (s : Step) (r : RunResult) :
    (∀ n, r = RunResult.exited n → execute_step s r = Except.ok ⟨s, RunResult.exited n⟩)
      ∧ ((∃ f, execute_step s r = Except.error f) ↔ r = RunResult.launchFail) := by
  constructor
  · intro n hr
    subst hr
    rfl
  · constructor
    · intro ⟨f, hf⟩
      cases r with
      | launchFail => rfl
      | exited n => simp [execute_step] at hf
    · intro hr
      subst hr
      exact ⟨Fault.launchError, rfl⟩

theorem claimC3_witness :
    execute_step ⟨"twine", ["check", "dist/*"], []⟩ (RunResult.exited 1)
        = Except.ok ⟨⟨"twine", ["check", "dist/*"], []⟩, RunResult.exited 1⟩
      ∧ ∃ f, execute_step ⟨"twine", ["check", "dist/*"], []⟩ RunResult.launchFail
          = Except.error f :=
  ⟨(claimC3 ⟨"twine", ["check", "dist/*"], []⟩ (RunResult.exited 1)).1 1 rfl,
    (claimC3 ⟨"twine", ["check", "dist/*"], []⟩ RunResult.launchFail).2.mpr rfl⟩

/-- Claim C8: the orchestration shape is a deterministic function of the task,
the raw arguments and the environment — two invocations with identical inputs
and identical external behaviour produce Step sequences identical in step
identity and ordering. -/
theorem claimC8 (t : NoxTask) (cfg : NoxConfig) (osenv : Env) (posargs : List String)
    (interactive : Bool) (o₁ o₂ : Oracle) (h : ∀ e a, o₁ e a = o₂ e a) :
    (invoke t cfg o₁ osenv posargs interactive).trace.map (fun r => r.step)
      = (invoke t cfg o₂ osenv posargs interactive).trace.map (fun r => r.step) := by
  have ho : o₁ = o₂ := funext fun e => funext fun a => h e a
  rw [ho]

theorem claimC8_witness :
    (invoke NoxTask.package cfg0 oAll [] [] false).trace.map (fun r => r.step)
      = (invoke NoxTask.package cfg0 oAllZero [] [] false).trace.map (fun r => r.step) :=
  claimC8 NoxTask.package cfg0 [] [] false oAll oAllZero
    (fun _ a => by simp [oAll, oAllZero])

/-- Claim C5 counterexample: in `package`, the install-skip flag suppresses
TWO commands (`python -m pip install poetry>=1` and `poetry install …`), not
exactly one Step; and in `docs` the flag suppresses nothing at all (the flag
is removed from the posargs before the skip check runs, so the invocation is
identical with and without it). -/
theorem claimC5_counterexample :
    (package cfg0 oAll [] []).trace.length = 4
      ∧ (package cfg0 oAll [] ["skip_install"]).trace.length = 2
      ∧ docs cfg0 oAll [] ["skip_install"] = docs cfg0 oAll [] [] :=
  ⟨rfl, rfl, rfl⟩

/-- Claim C9 counterexample: in the `coverage` session the single
`COVERAGE_FILE` assignment to the session environment is visible in the
spawned environment of several distinct Steps (the `coverage combine` step
and the `diff-cover` step among others), although the base process
environment does not contain it: the snapshot is mutated in place for the
invocation, not copied fresh per Step. -/
theorem claimC9_counterexample :
    ((coverage cfg0 oAll [] []).trace[2]?).map
        (fun r => (r.step.exe, r.step.args.head?, envGet r.step.env "COVERAGE_FILE"))
        = some ("coverage", some "combine", some ".coverage_cache/.coverage")
      ∧ ((coverage cfg0 oAll [] []).trace[6]?).map
          (fun r => (r.step.exe, envGet r.step.env "COVERAGE_FILE"))
        = some ("diff-cover", some ".coverage_cache/.coverage")
      ∧ envGet ([] : Env) "COVERAGE_FILE" = none :=
  ⟨rfl, rfl, rfl⟩

/-- Claim C7: for the fan-out of `pre_commit` over hooks `{a, b, c}` where
the run for `b` exits non-zero and the runs for `a` and `c` succeed, all
three hook Steps execute (in order), the reported failure detail
(`error_hooks`) names exactly `b`, and the invocation fails. -/
theorem claimC7 :
    ((pre_commit_core cfg0 oHookB [] ["HOOKS=a,b,c"] false).1.drop 2).map
        (fun r => (r.step.exe, r.step.args.getLast?, r.result))
        = [("pre-commit", some "a", RunResult.exited 0),
           ("pre-commit", some "b", RunResult.exited 1),
           ("pre-commit", some "c", RunResult.exited 0)]
      ∧ (pre_commit_core cfg0 oHookB [] ["HOOKS=a,b,c"] false).1.length = 5
      ∧ (pre_commit_core cfg0 oHookB [] ["HOOKS=a,b,c"] false).2.1 = ["b"]
      ∧ (pre_commit cfg0 oHookB [] ["HOOKS=a,b,c"] false).fault
          = some Fault.commandFailed :=
  ⟨rfl, rfl, rfl, rfl⟩

/-- Claim C4 counterexample: for the delegation helper `_tox_caller` (with
target `package`, empty posargs, the concrete configuration and an all-success
world), three OutcomeRecords are collected, not one, and the single
environment variable the helper sets is the sdist-skip toggle
`_TOX_SKIP_SDIST` with value `"True"`, which does not name the target
sub-task `package`; the target is named in the command-line arguments
instead. -/
theorem claimC4_counterexample :
    (_tox_caller cfg0 oAll [] [] "package").1.length = 3
      ∧ ((_tox_caller cfg0 oAll [] [] "package").1.getLast?).map
          (fun r => (r.step.exe, r.step.args, envGet r.step.env "_TOX_SKIP_SDIST"))
        = some ("tox", ["-e", "package"], some "True")
      ∧ ¬ ("True" = "package") :=
  ⟨rfl, rfl, by decide⟩

/-- Claim C4 (amended): a task delegating to the secondary orchestration
layer sets exactly one environment variable — the sdist-skip toggle
`_TOX_SKIP_SDIST`, whose value is the stringified config boolean, not a
name of the targets — names the target sub-tasks in the `-e` command-line
argument of the single indirection (`tox`) command, and that command is
preceded by the two dependency-installation commands, so its OutcomeRecord
is the last of the three collected. -/
theorem claimC4_amended (cfg : NoxConfig) (o : Oracle) (osenv : Env)
    (posargs : List String) (tox_env : String)
    (h : ∀ e a, o e a = RunResult.exited 0) :
    (_tox_caller cfg o osenv posargs tox_env).1.map (fun r => r.step.exe)
        = ["python", "poetry", "tox"]
      ∧ (∃ r, (_tox_caller cfg o osenv posargs tox_env).1.getLast? = some r
          ∧ r.step.args = "-e" :: tox_env :: posargs
          ∧ r.step.env = envSet osenv "_TOX_SKIP_SDIST" (pyStr cfg.toxSkipSdist))
      ∧ (_tox_caller cfg o osenv posargs tox_env).2 = none := by
  unfold _tox_caller
  rw [runSeq_success o _ (fun s _ => h s.exe s.args) []]
  refine ⟨?_, ?_, rfl⟩
  · simp [poetryInstallSteps]
  · refine ⟨⟨⟨"tox", "-e" :: tox_env :: posargs,
        envSet osenv "_TOX_SKIP_SDIST" (pyStr cfg.toxSkipSdist)⟩, RunResult.exited 0⟩,
      ?_, rfl, rfl⟩
    simp

theorem claimC4_amended_witness :
    (_tox_caller cfg0 oAll [] ["-v"] "safety,pre_commit").1.map (fun r => r.step.exe)
        = ["python", "poetry", "tox"]
      ∧ (∃ r, (_tox_caller cfg0 oAll [] ["-v"] "safety,pre_commit").1.getLast? = some r
          ∧ r.step.args = "-e" :: "safety,pre_commit" :: ["-v"]
          ∧ r.step.env = envSet [] "_TOX_SKIP_SDIST" (pyStr cfg0.toxSkipSdist))
      ∧ (_tox_caller cfg0 oAll [] ["-v"] "safety,pre_commit").2 = none :=
  claimC4_amended cfg0 oAll [] ["-v"] "safety,pre_commit" (fun _ _ => rfl)

/-- Claim C2: for a task whose Steps all use the fatal policy (`package`:
pip-bootstrap, poetry install, `poetry build`, `twine check`), Steps execute
in declaration order and the first failing Step halts the invocation
immediately — the executed trace is exactly the declared sequence through the
first failure, the invocation fails, and no Step declared after the first
failing one is ever executed; when no Step fails the whole declared sequence
runs and the invocation succeeds. -/
theorem claimC2 (cfg : NoxConfig) (osenv : Env) (o : Oracle)
    (hv : cfg.inVenv = true)
    (hnl : ∀ s ∈ packageDecl cfg osenv [], o s.exe s.args ≠ RunResult.launchFail) :
    (∀ k, firstFailIdx o (packageDecl cfg osenv []) = some k →
        (package cfg o osenv []).trace.map (fun r => r.step)
            = (packageDecl cfg osenv []).take (k + 1)
          ∧ (package cfg o osenv []).fault = some Fault.commandFailed
          ∧ ∀ s ∈ (packageDecl cfg osenv []).drop (k + 1),
              s ∉ (package cfg o osenv []).trace.map (fun r => r.step))
      ∧ (firstFailIdx o (packageDecl cfg osenv []) = none →
          (package cfg o osenv []).trace.map (fun r => r.step) = packageDecl cfg osenv []
            ∧ (package cfg o osenv []).fault = none) := by
  have hpkg : package cfg o osenv [] = toSR (runSeq o [] (packageDecl cfg osenv [])) := by
    rw [package, if_neg (by simp [hv])]
  have hmap : (packageDecl cfg osenv []).map (fun s => s.args.head?)
      = [some "-m", some "install", some "build", some "check"] := by
    simp [packageDecl, poetryInstallSteps]
  have hnd : (packageDecl cfg osenv []).Nodup :=
    List.Nodup.of_map (fun s => s.args.head?) (by rw [hmap]; decide)
  constructor
  · intro k hf
    have hrun := runSeq_fail o (packageDecl cfg osenv []) hnl k hf []
    have htr : (package cfg o osenv []).trace.map (fun r => r.step)
        = (packageDecl cfg osenv []).take (k + 1) := by
      rw [hpkg, toSR, hrun]
      simp [List.map_map, Function.comp_def]
    refine ⟨htr, by rw [hpkg, toSR, hrun], ?_⟩
    intro s hs hmem
    rw [htr] at hmem
    exact (List.disjoint_take_drop hnd (le_refl (k + 1))) hmem hs
  · intro hf
    have hall := (firstFailIdx_eq_none o (packageDecl cfg osenv [])).mp hf
    have hrun := runSeq_success o (packageDecl cfg osenv []) hall []
    constructor
    · rw [hpkg, toSR, hrun]
      simp [List.map_map, Function.comp_def]
    · rw [hpkg, toSR, hrun]

theorem claimC2_witness :
    (package cfg0 oBuildFail [] []).trace.map (fun r => r.step)
        = (packageDecl cfg0 [] []).take 3
      ∧ (package cfg0 oBuildFail [] []).fault = some Fault.commandFailed :=
  ⟨((claimC2 cfg0 [] oBuildFail rfl (by decide)).1 2 (by decide)).1,
    ((claimC2 cfg0 [] oBuildFail rfl (by decide)).1 2 (by decide)).2.1⟩

/-- Claim C10: for the test and coverage-report tasks, the minimum-coverage
threshold passed to the quality-gate command (`--cov-fail-under` for pytest,
`--fail-under` for `coverage report`) is 100 when `MIN_COVERAGE` is unset or
empty, and is the value of `MIN_COVERAGE` when that is set non-empty. -/
theorem claimC10 (cfg : NoxConfig) (osenv : Env) (o : Oracle)
    (hv : cfg.inVenv = true) (ho : ∀ e a, o e a = RunResult.exited 0) :
    ((envGet osenv "MIN_COVERAGE" = none ∨ envGet osenv "MIN_COVERAGE" = some "") →
        (∃ r, (test_code cfg o osenv []).trace.getLast? = some r
            ∧ r.step.exe = "pytest" ∧ "--cov-fail-under=100" ∈ r.step.args)
          ∧ (∃ r, r ∈ (coverage_report cfg o osenv []).trace
              ∧ r.step.exe = "coverage" ∧ "--fail-under=100" ∈ r.step.args))
      ∧ (∀ v, v ≠ "" → envGet osenv "MIN_COVERAGE" = some v →
          (∃ r, (test_code cfg o osenv []).trace.getLast? = some r
              ∧ r.step.exe = "pytest" ∧ ("--cov-fail-under=" ++ v) ∈ r.step.args)
            ∧ (∃ r, r ∈ (coverage_report cfg o osenv []).trace
                ∧ r.step.exe = "coverage" ∧ ("--fail-under=" ++ v) ∈ r.step.args)) := by
  have hmc : envGet (envSet osenv "COVERAGE_FILE"
        (cfg.covCacheDir ++ "/.coverage." ++ cfg.pythonName)) "MIN_COVERAGE"
      = envGet osenv "MIN_COVERAGE" := envGet_envSet_ne osenv _ (by decide)
  have hmc' : envGet (envSet osenv "COVERAGE_FILE" (cfg.covCacheDir ++ "/.coverage"))
        "MIN_COVERAGE"
      = envGet osenv "MIN_COVERAGE" := envGet_envSet_ne osenv _ (by decide)
  have htc : ∃ r, (test_code cfg o osenv []).trace.getLast? = some r
      ∧ r.step.exe = "pytest"
      ∧ ("--cov-fail-under=" ++ pyOr (envGet osenv "MIN_COVERAGE") "100") ∈ r.step.args := by
    rw [test_code, if_neg (by simp [hv])]
    simp only []
    rw [runSeq_success o _ (fun s _ => ho s.exe s.args) []]
    simp only [toSR, List.nil_append, List.map_append, List.map_cons, List.map_nil,
      List.getLast?_concat]
    refine ⟨_, rfl, rfl, ?_⟩
    simp [hmc]
  have hcr : ∃ r, r ∈ (coverage_report cfg o osenv []).trace
      ∧ r.step.exe = "coverage"
      ∧ ("--fail-under=" ++ pyOr (envGet osenv "MIN_COVERAGE") "100") ∈ r.step.args := by
    rw [coverage_report, if_neg (by simp [hv]), _coverage]
    rw [if_neg (show ¬ ("skip_install" ∈ ([] : List String)) from by simp)]
    rw [if_pos (show ("report" : String) = "report" ∨ ("report" : String) = "all"
      from Or.inl rfl)]
    rw [if_neg (show ¬ (("report" : String) = "merge" ∨ ("report" : String) = "all")
      from by simp)]
    rw [List.append_nil, runSeq_success o _ (fun s _ => ho s.exe s.args) []]
    rw [if_pos (show ("report" : String) = "report" ∨ ("report" : String) = "all"
      from Or.inl rfl)]
    simp only [ho, execute_step]
    refine ⟨⟨⟨"coverage",
        ["report", "-m", "--fail-under=" ++ pyOr (envGet (envSet osenv "COVERAGE_FILE"
          (cfg.covCacheDir ++ "/.coverage")) "MIN_COVERAGE") "100"],
        envSet osenv "COVERAGE_FILE" (cfg.covCacheDir ++ "/.coverage")⟩,
        RunResult.exited 0⟩, ?_, rfl, ?_⟩
    · simp
    · simp [hmc']
  constructor
  · intro hnone
    have hx : pyOr (envGet osenv "MIN_COVERAGE") "100" = "100" := by
      rcases hnone with h | h <;> simp [h, pyOr]
    rw [hx] at htc hcr
    exact ⟨htc, hcr⟩
  · intro v hne hsome
    have hx : pyOr (envGet osenv "MIN_COVERAGE") "100" = v := by
      simp [hsome, pyOr, hne]
    rw [hx] at htc hcr
    exact ⟨htc, hcr⟩

theorem claimC10_witness :
    ((∃ r, (test_code cfg0 oAll [] []).trace.getLast? = some r
        ∧ r.step.exe = "pytest" ∧ "--cov-fail-under=100" ∈ r.step.args)
      ∧ (∃ r, r ∈ (coverage_report cfg0 oAll [] []).trace
          ∧ r.step.exe = "coverage" ∧ "--fail-under=100" ∈ r.step.args))
    ∧ ((∃ r, (test_code cfg0 oAll [("MIN_COVERAGE", "85")] []).trace.getLast? = some r
        ∧ r.step.exe = "pytest" ∧ "--cov-fail-under=85" ∈ r.step.args)
      ∧ (∃ r, r ∈ (coverage_report cfg0 oAll [("MIN_COVERAGE", "85")] []).trace
          ∧ r.step.exe = "coverage" ∧ "--fail-under=85" ∈ r.step.args)) :=
  ⟨(claimC10 cfg0 [] oAll rfl (fun _ _ => rfl)).1 (Or.inl rfl),
    (claimC10 cfg0 [("MIN_COVERAGE", "85")] oAll rfl (fun _ _ => rfl)).2
      "85" (by decide) rfl⟩


/-- Reduction of `pre_commit`'s direct branch for a single `HOOKS=` posarg:
the install records followed by the hook loop over the comma-separated hook
list, together with the accumulated `error_hooks`. -/
theorem preCoreHooks (cfg : NoxConfig) (osenv : Env) (o : Oracle) (hooks_arg : String)
    (h1 : hooks_arg ≠ "skip_install") (h2 : hooks_arg ≠ "diff") (h3 : hooks_arg ≠ "nodiff")
    (h5 : hooks_arg ≠ "")
    (harg : pyStartsWith hooks_arg "HOOKS=" = true)
    (hnsk : pyStartsWith hooks_arg "SKIP=" = false)
    (hinst : ∀ s ∈ poetryInstallSteps cfg osenv osenv (some "pre-commit testing docs poetry nox")
        (cfg.toxCalls || cfg.inCI) cfg.toxCalls false,
      o s.exe s.args = RunResult.exited 0)
    (hnl : ∀ h ∈ pySplit (hooks_arg.drop 6) ',',
      o "pre-commit" ["run", "--all-files", "--show-diff-on-failure", h]
        ≠ RunResult.launchFail) :
    pre_commit_core cfg o osenv [hooks_arg] false
      = ((poetryInstallSteps cfg osenv osenv (some "pre-commit testing docs poetry nox")
            (cfg.toxCalls || cfg.inCI) cfg.toxCalls false).map
            (fun s => ⟨s, RunResult.exited 0⟩)
          ++ (pySplit (hooks_arg.drop 6) ',').map
              (fun h => ⟨⟨"pre-commit",
                  ["run", "--all-files", "--show-diff-on-failure", h], osenv⟩,
                o "pre-commit" ["run", "--all-files", "--show-diff-on-failure", h]⟩),
        (pySplit (hooks_arg.drop 6) ',').filter
          (fun h => decide (o "pre-commit"
            ["run", "--all-files", "--show-diff-on-failure", h] ≠ RunResult.exited 0)),
        none) := by
  rw [pre_commit_core,
    if_neg (show ¬ ("skip_install" ∈ [hooks_arg]) from by simp [Ne.symm h1]),
    runSeq_success o _ hinst []]
  simp only [List.nil_append]
  have hfind1 : List.find? (fun a => pyStartsWith a "SKIP=") [hooks_arg] = none := by
    simp [List.find?, hnsk]
  have hfind2 : List.find? (fun a => pyStartsWith a "HOOKS=") [hooks_arg] = some hooks_arg := by
    simp [List.find?, harg]
  have hmem2 : ¬ ("diff" ∈ [hooks_arg]) := by simp [Ne.symm h2]
  have hmem3 : ¬ ("nodiff" ∈ [hooks_arg]) := by simp [Ne.symm h3]
  simp only [hfind1, hfind2, hmem2, hmem3, decide_False, decide_True, Option.getD_some,
    Option.getD_none, Bool.false_and, Bool.not_false, Bool.true_and, Bool.false_or,
    Bool.and_self, if_true, if_false]
  have e1 : [hooks_arg].erase "skip_install" = [hooks_arg] :=
    List.erase_of_not_mem (by simp [Ne.symm h1])
  have e2 : [hooks_arg].erase "diff" = [hooks_arg] :=
    List.erase_of_not_mem (by simp [Ne.symm h2])
  have e3 : [hooks_arg].erase "nodiff" = [hooks_arg] :=
    List.erase_of_not_mem (by simp [Ne.symm h3])
  have e4 : [hooks_arg].erase "" = [hooks_arg] :=
    List.erase_of_not_mem (by simp [Ne.symm h5])
  simp only [e1, e2, e3, e4, List.erase_cons_head, List.erase_nil]
  rw [if_neg h5]
  simp only [envUpdate, List.append_nil]
  rw [hookLoop_spec o osenv (["run", "--all-files"] ++ ["--show-diff-on-failure"])
    (pySplit (hooks_arg.drop 6) ',') hnl _ []]
  simp

theorem claimC1 :
    (∀ (cfg : NoxConfig) (osenv : Env) (o : Oracle) (hooks_arg : String),
      cfg.inVenv = true →
      hooks_arg ≠ "skip_install" → hooks_arg ≠ "diff" → hooks_arg ≠ "nodiff" →
      hooks_arg ≠ "tox" → hooks_arg ≠ "" →
      pyStartsWith hooks_arg "HOOKS=" = true →
      pyStartsWith hooks_arg "SKIP=" = false →
      (∀ s ∈ poetryInstallSteps cfg osenv osenv (some "pre-commit testing docs poetry nox")
          (cfg.toxCalls || cfg.inCI) cfg.toxCalls false,
        o s.exe s.args = RunResult.exited 0) →
      (∀ h ∈ pySplit (hooks_arg.drop 6) ',',
        o "pre-commit" ["run", "--all-files", "--show-diff-on-failure", h]
          ≠ RunResult.launchFail) →
      (pre_commit cfg o osenv [hooks_arg] false).trace.map (fun r => r.step)
          = poetryInstallSteps cfg osenv osenv (some "pre-commit testing docs poetry nox")
              (cfg.toxCalls || cfg.inCI) cfg.toxCalls false
            ++ (pySplit (hooks_arg.drop 6) ',').map
                (fun h => ⟨"pre-commit",
                  ["run", "--all-files", "--show-diff-on-failure", h], osenv⟩)
        ∧ ((pre_commit cfg o osenv [hooks_arg] false).fault = none
            ↔ ∀ h ∈ pySplit (hooks_arg.drop 6) ',',
                o "pre-commit" ["run", "--all-files", "--show-diff-on-failure", h]
                  = RunResult.exited 0))
    ∧ (∀ (cfg : NoxConfig) (osenv : Env) (o : Oracle),
      cfg.inVenv = true →
      (∀ s ∈ poetryInstallSteps cfg osenv osenv (some "coverage diff-cover")
          (cfg.toxCalls || cfg.inCI) true false,
        o s.exe s.args = RunResult.exited 0) →
      o "coverage" ["report", "-m", "--fail-under=" ++ pyOr
          (envGet (envSet osenv "COVERAGE_FILE" (cfg.covCacheDir ++ "/.coverage"))
            "MIN_COVERAGE") "100"]
        ≠ RunResult.launchFail →
      o "diff-cover"
          ["--compare-branch=" ++ pyOr (envGet (envSet osenv "COVERAGE_FILE"
              (cfg.covCacheDir ++ "/.coverage")) "DIFF_AGAINST") "origin/master",
            "--ignore-staged", "--ignore-unstaged",
            "--fail-under=" ++ pyOr (envGet (envSet osenv "COVERAGE_FILE"
              (cfg.covCacheDir ++ "/.coverage")) "MIN_DIFF_COVERAGE") "100",
            "--diff-range-notation=" ++ pyOr (envGet (envSet osenv "COVERAGE_FILE"
              (cfg.covCacheDir ++ "/.coverage")) "DIFF_RANGE_NOTATION") "..",
            cfg.covCacheDir ++ "/coverage.xml"]
        ≠ RunResult.launchFail →
      ((coverage_report cfg o osenv []).trace.map (fun r => r.step)
          = poetryInstallSteps cfg osenv osenv (some "coverage diff-cover")
              (cfg.toxCalls || cfg.inCI) true false
            ++ [⟨"coverage", ["report", "-m", "--fail-under=" ++ pyOr
                  (envGet (envSet osenv "COVERAGE_FILE"
                    (cfg.covCacheDir ++ "/.coverage")) "MIN_COVERAGE") "100"],
                envSet osenv "COVERAGE_FILE" (cfg.covCacheDir ++ "/.coverage")⟩,
              ⟨"diff-cover",
                ["--compare-branch=" ++ pyOr (envGet (envSet osenv "COVERAGE_FILE"
                    (cfg.covCacheDir ++ "/.coverage")) "DIFF_AGAINST") "origin/master",
                  "--ignore-staged", "--ignore-unstaged",
                  "--fail-under=" ++ pyOr (envGet (envSet osenv "COVERAGE_FILE"
                    (cfg.covCacheDir ++ "/.coverage")) "MIN_DIFF_COVERAGE") "100",
                  "--diff-range-notation=" ++ pyOr (envGet (envSet osenv "COVERAGE_FILE"
                    (cfg.covCacheDir ++ "/.coverage")) "DIFF_RANGE_NOTATION") "..",
                  cfg.covCacheDir ++ "/coverage.xml"],
                envSet osenv "COVERAGE_FILE" (cfg.covCacheDir ++ "/.coverage")⟩])
        ∧ ((coverage_report cfg o osenv []).fault = none
            ↔ o "coverage" ["report", "-m", "--fail-under=" ++ pyOr
                  (envGet (envSet osenv "COVERAGE_FILE"
                    (cfg.covCacheDir ++ "/.coverage")) "MIN_COVERAGE") "100"]
                = RunResult.exited 0
              ∧ o "diff-cover"
                  ["--compare-branch=" ++ pyOr (envGet (envSet osenv "COVERAGE_FILE"
                      (cfg.covCacheDir ++ "/.coverage")) "DIFF_AGAINST") "origin/master",
                    "--ignore-staged", "--ignore-unstaged",
                    "--fail-under=" ++ pyOr (envGet (envSet osenv "COVERAGE_FILE"
                      (cfg.covCacheDir ++ "/.coverage")) "MIN_DIFF_COVERAGE") "100",
                    "--diff-range-notation=" ++ pyOr (envGet (envSet osenv "COVERAGE_FILE"
                      (cfg.covCacheDir ++ "/.coverage")) "DIFF_RANGE_NOTATION") "..",
                    cfg.covCacheDir ++ "/coverage.xml"]
                  = RunResult.exited 0)) := by
  constructor
  · intro cfg osenv o hooks_arg hv h1 h2 h3 h4 h5 harg hnsk hinst hnl
    have hcore := preCoreHooks cfg osenv o hooks_arg h1 h2 h3 h5 harg hnsk hinst hnl
    have htr : (pre_commit cfg o osenv [hooks_arg] false).trace
        = (poetryInstallSteps cfg osenv osenv (some "pre-commit testing docs poetry nox")
              (cfg.toxCalls || cfg.inCI) cfg.toxCalls false).map
              (fun s => ⟨s, RunResult.exited 0⟩)
            ++ (pySplit (hooks_arg.drop 6) ',').map
                (fun h => ⟨⟨"pre-commit",
                    ["run", "--all-files", "--show-diff-on-failure", h], osenv⟩,
                  o "pre-commit" ["run", "--all-files", "--show-diff-on-failure", h]⟩) := by
      rw [pre_commit, if_neg (by simp [hv, Ne.symm h4]), hcore]
    have hfault : (pre_commit cfg o osenv [hooks_arg] false).fault
        = if (pySplit (hooks_arg.drop 6) ',').filter
              (fun h => decide (o "pre-commit"
                ["run", "--all-files", "--show-diff-on-failure", h]
                  ≠ RunResult.exited 0)) = []
          then none else some Fault.commandFailed := by
      rw [pre_commit, if_neg (by simp [hv, Ne.symm h4]), hcore]
    constructor
    · rw [htr]
      simp [List.map_map, Function.comp_def]
    · rw [hfault]
      constructor
      · intro hnone
        intro h hh
        by_cases hfil : (pySplit (hooks_arg.drop 6) ',').filter
            (fun h => decide (o "pre-commit"
              ["run", "--all-files", "--show-diff-on-failure", h]
                ≠ RunResult.exited 0)) = []
        · have := List.filter_eq_nil_iff.mp hfil h hh
          simpa using this
        · rw [if_neg hfil] at hnone
          exact absurd hnone (by simp)
      · intro hall
        rw [if_pos (List.filter_eq_nil_iff.mpr (fun h hh => by simp [hall h hh]))]
  · intro cfg osenv o hv hinst hnl1 hnl2
    rw [coverage_report, if_neg (by simp [hv]), _coverage]
    rw [if_neg (show ¬ ("skip_install" ∈ ([] : List String)) from by simp)]
    rw [if_pos (show ("report" : String) = "report" ∨ ("report" : String) = "all"
      from Or.inl rfl)]
    rw [if_pos (show ("report" : String) = "report" ∨ ("report" : String) = "all"
      from Or.inl rfl)]
    rw [if_neg (show ¬ (("report" : String) = "merge" ∨ ("report" : String) = "all")
      from by simp)]
    rw [List.append_nil, runSeq_success o _ hinst []]
    simp only [List.nil_append]
    cases hrep : o "coverage" ["report", "-m", "--fail-under=" ++ pyOr
        (envGet (envSet osenv "COVERAGE_FILE" (cfg.covCacheDir ++ "/.coverage"))
          "MIN_COVERAGE") "100"] with
    | launchFail => exact absurd hrep hnl1
    | exited n =>
      cases hdiff : o "diff-cover"
          ["--compare-branch=" ++ pyOr (envGet (envSet osenv "COVERAGE_FILE"
              (cfg.covCacheDir ++ "/.coverage")) "DIFF_AGAINST") "origin/master",
            "--ignore-staged", "--ignore-unstaged",
            "--fail-under=" ++ pyOr (envGet (envSet osenv "COVERAGE_FILE"
              (cfg.covCacheDir ++ "/.coverage")) "MIN_DIFF_COVERAGE") "100",
            "--diff-range-notation=" ++ pyOr (envGet (envSet osenv "COVERAGE_FILE"
              (cfg.covCacheDir ++ "/.coverage")) "DIFF_RANGE_NOTATION") "..",
            cfg.covCacheDir ++ "/coverage.xml"] with
      | launchFail => exact absurd hdiff hnl2
      | exited m =>
        by_cases hn : n = 0 <;> by_cases hm : m = 0 <;>
          simp [hrep, hdiff, execute_step, hn, hm, List.map_map, Function.comp_def]

theorem claimC1_witness :
    (pre_commit cfg0 oHookB [] ["HOOKS=a,b,c"] false).fault ≠ none
      ∧ (coverage_report cfg0 oAll [] []).fault = none := by
  constructor
  · have h := (claimC1.1 cfg0 [] oHookB "HOOKS=a,b,c" rfl (by decide) (by decide)
      (by decide) (by decide) (by decide) (by decide) (by decide) (by decide) (by decide)).2
    intro hnone
    rw [h] at hnone
    have hb := hnone "b" (by decide)
    exact absurd hb (by decide)
  · have h := (claimC1.2 cfg0 [] oAll rfl (fun s _ => rfl) (by simp [oAll])
      (by simp [oAll])).2
    rw [h]
    exact ⟨rfl, rfl⟩

/-- Claim C6 counterexample: a generic `FOO=bar` token IS forwarded as a
positional argument to the external command and the spawned environment does
not bind `FOO`; and for the one recognized env-override marker, `SKIP=foo`,
the spawned environment binds SKIP to `"foo,"` (the value merged with the
prior skip list), not to the verbatim `"foo"`. -/
theorem claimC6_counterexample :
    ((pre_commit cfg0 oAll [] ["FOO=bar"] false).trace.getLast?).map
        (fun r => (decide ("FOO=bar" ∈ r.step.args), envGet r.step.env "FOO"))
      = some (true, none)
      ∧ ((pre_commit cfg0 oAll [] ["SKIP=foo"] false).trace.getLast?).map
          (fun r => (decide ("SKIP=foo" ∈ r.step.args), envGet r.step.env "SKIP"))
        = some (false, some "foo,")
      ∧ (some "foo," : Option String) ≠ some "foo" :=
  ⟨rfl, rfl, by decide⟩

/-- Claim C6 (amended): only a token bearing the recognized `SKIP=` marker is
treated as an environment override: it is extracted from the passthrough
arguments (never forwarded positionally) and the spawned hook process's
environment binds SKIP to the token's value followed by `','` and the
previously configured skip list; any other `KEY=value` token is forwarded
verbatim as a positional argument and leaves the spawned environment
unchanged. -/
theorem claimC6_amended :
    (∀ (cfg : NoxConfig) (osenv : Env) (o : Oracle) (v : String),
      cfg.inVenv = true →
      (∀ e a, o e a = RunResult.exited 0) →
      pyStartsWith ("SKIP=" ++ v) "SKIP=" = true →
      pyStartsWith ("SKIP=" ++ v) "HOOKS=" = false →
      ("SKIP=" ++ v).drop 5 = v →
      "SKIP=" ++ v ≠ "skip_install" → "SKIP=" ++ v ≠ "diff" → "SKIP=" ++ v ≠ "nodiff" →
      "SKIP=" ++ v ≠ "tox" → "SKIP=" ++ v ≠ "" →
      "SKIP=" ++ v ≠ "run" → "SKIP=" ++ v ≠ "--all-files" →
      "SKIP=" ++ v ≠ "--show-diff-on-failure" →
      ∃ r, (pre_commit cfg o osenv ["SKIP=" ++ v] false).trace.getLast? = some r
        ∧ r.step.exe = "pre-commit"
        ∧ ("SKIP=" ++ v) ∉ r.step.args
        ∧ envGet r.step.env "SKIP" = some (v ++ ","))
    ∧ (∀ (cfg : NoxConfig) (osenv : Env) (o : Oracle) (t : String),
      cfg.inVenv = true →
      (∀ e a, o e a = RunResult.exited 0) →
      pyStartsWith t "SKIP=" = false →
      pyStartsWith t "HOOKS=" = false →
      t ≠ "skip_install" → t ≠ "diff" → t ≠ "nodiff" → t ≠ "tox" → t ≠ "" →
      ∃ r, (pre_commit cfg o osenv [t] false).trace.getLast? = some r
        ∧ t ∈ r.step.args
        ∧ r.step.env = osenv) := by
  constructor
  · intro cfg osenv o v hv ho hsk hhk hdrop h1 h2 h3 h4 h5 h6 h7 h8
    rw [pre_commit, if_neg (by simp [hv, Ne.symm h4])]
    rw [pre_commit_core,
      if_neg (show ¬ ("skip_install" ∈ ["SKIP=" ++ v]) from by simp [Ne.symm h1]),
      runSeq_success o _ (fun s _ => ho s.exe s.args) []]
    simp only [List.nil_append]
    have hfind1 : List.find? (fun a => pyStartsWith a "SKIP=") ["SKIP=" ++ v]
        = some ("SKIP=" ++ v) := by simp [List.find?, hsk]
    have hfind2 : List.find? (fun a => pyStartsWith a "HOOKS=") ["SKIP=" ++ v] = none := by
      simp [List.find?, hhk]
    have hmem2 : ¬ ("diff" ∈ ["SKIP=" ++ v]) := by simp [Ne.symm h2]
    have hmem3 : ¬ ("nodiff" ∈ ["SKIP=" ++ v]) := by simp [Ne.symm h3]
    simp only [hfind1, hfind2, hmem2, hmem3, decide_False, decide_True, Option.getD_some,
      Option.getD_none, Bool.false_and, Bool.not_false, Bool.true_and, Bool.false_or,
      Bool.and_self, if_true, if_false]
    rw [if_neg h5, hdrop]
    have e1 : ["SKIP=" ++ v].erase "skip_install" = ["SKIP=" ++ v] :=
      List.erase_of_not_mem (by simp [Ne.symm h1])
    have e2 : ["SKIP=" ++ v].erase "diff" = ["SKIP=" ++ v] :=
      List.erase_of_not_mem (by simp [Ne.symm h2])
    have e3 : ["SKIP=" ++ v].erase "nodiff" = ["SKIP=" ++ v] :=
      List.erase_of_not_mem (by simp [Ne.symm h3])
    simp only [e1, e2, e3, List.erase_cons_head, List.erase_nil]
    rw [hookLoop_spec o _ _ [""] (fun h _ => by rw [ho]; simp) _ []]
    refine ⟨⟨⟨"pre-commit", ["run", "--all-files", "--show-diff-on-failure", ""],
        envSet osenv "SKIP" (v ++ ",")⟩, RunResult.exited 0⟩, ?_, rfl, ?_, ?_⟩
    · simp [ho, envUpdate, envGet, String.append_empty, List.getLast?_concat]
    · simp only [List.mem_cons, List.mem_singleton, not_or]
      exact ⟨h6, h7, h8, h5, List.not_mem_nil _⟩
    · exact envGet_envSet_self osenv "SKIP" (v ++ ",")
  · intro cfg osenv o t hv ho hsk hhk h1 h2 h3 h4 h5
    rw [pre_commit, if_neg (by simp [hv, Ne.symm h4])]
    rw [pre_commit_core,
      if_neg (show ¬ ("skip_install" ∈ [t]) from by simp [Ne.symm h1]),
      runSeq_success o _ (fun s _ => ho s.exe s.args) []]
    simp only [List.nil_append]
    have hfind1 : List.find? (fun a => pyStartsWith a "SKIP=") [t] = none := by
      simp [List.find?, hsk]
    have hfind2 : List.find? (fun a => pyStartsWith a "HOOKS=") [t] = none := by
      simp [List.find?, hhk]
    have hmem2 : ¬ ("diff" ∈ [t]) := by simp [Ne.symm h2]
    have hmem3 : ¬ ("nodiff" ∈ [t]) := by simp [Ne.symm h3]
    simp only [hfind1, hfind2, hmem2, hmem3, decide_False, decide_True, Option.getD_some,
      Option.getD_none, Bool.false_and, Bool.not_false, Bool.true_and, Bool.false_or,
      Bool.and_self, if_true, if_false]
    have e1 : [t].erase "skip_install" = [t] := List.erase_of_not_mem (by simp [Ne.symm h1])
    have e2 : [t].erase "diff" = [t] := List.erase_of_not_mem (by simp [Ne.symm h2])
    have e3 : [t].erase "nodiff" = [t] := List.erase_of_not_mem (by simp [Ne.symm h3])
    have e4 : [t].erase "" = [t] := List.erase_of_not_mem (by simp [Ne.symm h5])
    simp only [e1, e2, e3, e4]
    rw [hookLoop_spec o _ _ [""] (fun h _ => by rw [ho]; simp) _ []]
    refine ⟨⟨⟨"pre-commit", ["run", "--all-files", "--show-diff-on-failure", t, ""],
        osenv⟩, RunResult.exited 0⟩, ?_, ?_, rfl⟩
    · simp [ho, envUpdate, List.getLast?_concat]
    · simp

theorem claimC6_amended_witness :
    (∃ r, (pre_commit cfg0 oAll [] ["SKIP=" ++ "foo"] false).trace.getLast? = some r
        ∧ r.step.exe = "pre-commit"
        ∧ ("SKIP=" ++ "foo") ∉ r.step.args
        ∧ envGet r.step.env "SKIP" = some ("foo" ++ ","))
      ∧ (∃ r, (pre_commit cfg0 oAll [] ["FOO=bar"] false).trace.getLast? = some r
          ∧ "FOO=bar" ∈ r.step.args
          ∧ r.step.env = []) :=
  ⟨claimC6_amended.1 cfg0 [] oAll "foo" rfl (fun _ _ => rfl) (by decide) (by decide)
      (by decide) (by decide) (by decide) (by decide) (by decide) (by decide) (by decide)
      (by decide) (by decide),
    claimC6_amended.2 cfg0 [] oAll "FOO=bar" rfl (fun _ _ => rfl) (by decide)
      (by decide) (by decide) (by decide) (by decide) (by decide) (by decide)⟩

/-- Claim C9 (amended): the environment snapshot is created once per
invocation, not copied fresh per Step: an in-place modification of the
session environment (`COVERAGE_FILE` in the `coverage` session) is visible to
every subsequent Step of the invocation, while a per-Step overlay passed to a
single run (`PIP_DISABLE_VERSION_CHECK` on the pip bootstrap step) appears
only in that Step's spawned environment and in no later Step's. -/
theorem claimC9_amended (cfg : NoxConfig) (osenv : Env) (o : Oracle)
    (hv : cfg.inVenv = true) (ho : ∀ e a, o e a = RunResult.exited 0)
    (hpd : envGet osenv "PIP_DISABLE_VERSION_CHECK" = none) :
    (∀ r ∈ (coverage cfg o osenv []).trace.drop 2,
        envGet r.step.env "COVERAGE_FILE" = some (cfg.covCacheDir ++ "/.coverage"))
      ∧ (∀ r ∈ (coverage cfg o osenv []).trace.drop 2,
          envGet r.step.env "PIP_DISABLE_VERSION_CHECK" = none)
      ∧ (∃ r, (coverage cfg o osenv []).trace.head? = some r
          ∧ envGet r.step.env "PIP_DISABLE_VERSION_CHECK" = some "1") := by
  have hne1 : ("COVERAGE_FILE" : String) ≠ "PIP_DISABLE_VERSION_CHECK" := by decide
  have hq : ∀ k', k' ≠ "COVERAGE_FILE" →
      envGet (envSet osenv "COVERAGE_FILE" (cfg.covCacheDir ++ "/.coverage")) k'
        = envGet osenv k' := fun k' hk => envGet_envSet_ne osenv _ hk
  rw [coverage, if_neg (by simp [hv]), _coverage]
  rw [if_neg (show ¬ ("skip_install" ∈ ([] : List String)) from by simp)]
  rw [if_pos (show ("all" : String) = "report" ∨ ("all" : String) = "all" from Or.inr rfl)]
  rw [if_pos (show ("all" : String) = "report" ∨ ("all" : String) = "all" from Or.inr rfl)]
  rw [if_pos (show ("all" : String) = "merge" ∨ ("all" : String) = "all" from Or.inr rfl)]
  rw [runSeq_success o _ (fun s _ => ho s.exe s.args) []]
  simp only [List.nil_append, ho, execute_step, poetryInstallSteps, List.map_append,
    List.map_cons, List.map_nil, List.cons_append, List.append_assoc, ne_eq,
    not_true_eq_false, if_true, if_false, reduceCtorEq, decide_False, Bool.false_eq_true,
    ite_eq_right_iff, ite_false, ite_true]
  refine ⟨?_, ?_, ?_⟩
  · intro r hr
    simp only [List.drop_succ_cons, List.drop_zero] at hr
    simp only [List.mem_append, List.mem_cons, List.not_mem_nil, or_false] at hr
    rcases hr with rfl | rfl | rfl | rfl | rfl <;>
      exact envGet_envSet_self osenv "COVERAGE_FILE" (cfg.covCacheDir ++ "/.coverage")
  · intro r hr
    simp only [List.drop_succ_cons, List.drop_zero] at hr
    simp only [List.mem_append, List.mem_cons, List.not_mem_nil, or_false] at hr
    rcases hr with rfl | rfl | rfl | rfl | rfl <;>
      rw [hq "PIP_DISABLE_VERSION_CHECK" (by decide), hpd]
  · refine ⟨_, rfl, ?_⟩
    by_cases hpv : cfg.passthroughVenv = true
    · simp only [hpv, Bool.or_true, if_true, Bool.false_or, if_pos]
      simp [envUpdate, envGet_envSet_ne, envGet_envSet_self, hpd]
    · have hpv' : cfg.passthroughVenv = false := by
        cases h : cfg.passthroughVenv
        · rfl
        · exact absurd h hpv
      simp only [hpv', Bool.or_false, Bool.false_or, if_false]
      simp [envUpdate, envGet_envSet_self]

theorem claimC9_amended_witness :
    envGet ((⟨⟨"coverage", ["combine"],
        envSet [] "COVERAGE_FILE" (cfg0.covCacheDir ++ "/.coverage")⟩,
      RunResult.exited 0⟩ : OutcomeRecord)).step.env "COVERAGE_FILE"
      = some (cfg0.covCacheDir ++ "/.coverage") :=
  (claimC9_amended cfg0 [] oAll rfl (fun _ _ => rfl) rfl).1
    ⟨⟨"coverage", ["combine"], envSet [] "COVERAGE_FILE" (cfg0.covCacheDir ++ "/.coverage")⟩,
      RunResult.exited 0⟩ (by decide)

/-- Both commands of the poetry-install phase are dependency-installation
commands. -/
theorem poetryInstallSteps_install (cfg : NoxConfig) (osenv senv : Env)
    (extras : Option String) (no_dev no_root require_venv : Bool) :
    ∀ s ∈ poetryInstallSteps cfg osenv senv extras no_dev no_root require_venv,
      isInstallStep s := by
  intro s hs
  simp only [poetryInstallSteps, List.mem_cons, List.not_mem_nil, or_false] at hs
  rcases hs with rfl | rfl
  · exact Or.inl ⟨rfl, rfl⟩
  · exact Or.inr ⟨rfl, rfl⟩

/-- The poetry-install phase spawns exactly two commands. -/
theorem poetryInstallSteps_length (cfg : NoxConfig) (osenv senv : Env)
    (extras : Option String) (no_dev no_root require_venv : Bool) :
    (poetryInstallSteps cfg osenv senv extras no_dev no_root require_venv).length = 2 := by
  simp [poetryInstallSteps]

/-- Skip-flag behaviour of `package`: the flag removes exactly the two
install commands, which open the unflagged trace. -/
theorem c5_package (cfg : NoxConfig) (osenv : Env) (q : List String) (o : Oracle)
    (hv : cfg.inVenv = true) (htox : "tox" ∉ q) (hsk : "skip_install" ∉ q)
    (ho : ∀ e a, o e a = RunResult.exited 0) :
    (package cfg o osenv ("skip_install" :: q)).trace
        = ((package cfg o osenv q).trace).drop 2
      ∧ ∀ r ∈ ((package cfg o osenv q).trace).take 2, isInstallStep r.step := by
  have hc1 : ¬((!cfg.inVenv) = true ∨ "tox" ∈ ("skip_install" :: q)) := by
    simp [hv, htox]
  have hc2 : ¬((!cfg.inVenv) = true ∨ "tox" ∈ q) := by simp [hv, htox]
  rw [package, if_neg hc1, package, if_neg hc2]
  rw [packageDecl, if_pos (List.mem_cons_self _ _), packageDecl, if_neg hsk]
  rw [runSeq_success o _ (fun s _ => ho s.exe s.args) [],
    runSeq_success o _ (fun s _ => ho s.exe s.args) []]
  simp only [toSR, List.nil_append, List.map_append]
  have hlen : ((poetryInstallSteps cfg osenv osenv (some "poetry twine")
      (cfg.toxCalls || cfg.inCI) true false).map
      (fun s => (⟨s, RunResult.exited 0⟩ : OutcomeRecord))).length = 2 := by
    rw [List.length_map, poetryInstallSteps_length]
  constructor
  · rw [List.drop_left' hlen]
  · intro r hr
    rw [List.take_left' hlen] at hr
    simp only [List.mem_map] at hr
    obtain ⟨s, hs, rfl⟩ := hr
    exact poetryInstallSteps_install cfg osenv osenv _ _ _ _ s hs

/-- Skip-flag behaviour of `test_code`: the flag removes the install
commands (three when nox is not driven by tox, else two), which open the
unflagged trace. -/
theorem c5_test_code (cfg : NoxConfig) (osenv : Env) (q : List String) (o : Oracle)
    (hv : cfg.inVenv = true) (htox : "tox" ∉ q) (hsk : "skip_install" ∉ q)
    (ho : ∀ e a, o e a = RunResult.exited 0) :
    (test_code cfg o osenv ("skip_install" :: q)).trace
        = ((test_code cfg o osenv q).trace).drop (if cfg.toxCalls then 2 else 3)
      ∧ ∀ r ∈ ((test_code cfg o osenv q).trace).take (if cfg.toxCalls then 2 else 3),
          isInstallStep r.step := by
  have hc1 : ¬((!cfg.inVenv) = true ∨ "tox" ∈ ("skip_install" :: q)) := by
    simp [hv, htox]
  have hc2 : ¬((!cfg.inVenv) = true ∨ "tox" ∈ q) := by simp [hv, htox]
  rw [test_code, if_neg hc1, test_code, if_neg hc2]
  dsimp only
  rw [if_pos (List.mem_cons_self "skip_install" q), if_neg hsk,
    if_pos (List.mem_cons_self "skip_install" q), if_neg hsk,
    List.erase_cons_head]
  rw [runSeq_success o _ (fun s _ => ho s.exe s.args) [],
    runSeq_success o _ (fun s _ => ho s.exe s.args) []]
  simp only [toSR, List.nil_append, List.map_append]
  have hlen2 : ((poetryInstallSteps cfg osenv osenv (some "testing")
        (cfg.toxCalls || cfg.inCI) true false).map
          (fun s => (⟨s, RunResult.exited 0⟩ : OutcomeRecord))
        ++ ((if !cfg.toxCalls then [⟨"python", ["-m", "pip", "install", "."], osenv⟩]
            else [] : List Step)).map
          (fun s => (⟨s, RunResult.exited 0⟩ : OutcomeRecord))).length
      = (if cfg.toxCalls then 2 else 3) := by
    rw [List.length_append, List.length_map, List.length_map, poetryInstallSteps_length]
    cases hv' : cfg.toxCalls <;> simp
  constructor
  · rw [List.drop_left' hlen2]
  · intro r hr
    rw [List.take_left' hlen2] at hr
    simp only [List.mem_append, List.mem_map] at hr
    rcases hr with ⟨s, hs, rfl⟩ | ⟨s, hs, rfl⟩
    · exact poetryInstallSteps_install cfg osenv osenv _ _ _ _ s hs
    · cases hv' : cfg.toxCalls with
      | true =>
        rw [hv'] at hs
        simp at hs
      | false =>
        rw [hv'] at hs
        simp at hs
        subst hs
        exact Or.inl ⟨rfl, rfl⟩

/-- Skip-flag behaviour of the `_coverage` helper for any job: the flag
removes exactly the two install commands, which open the unflagged trace. -/
theorem c5_coverage (cfg : NoxConfig) (osenv : Env) (q : List String) (o : Oracle)
    (job : String) (hsk : "skip_install" ∉ q)
    (ho : ∀ e a, o e a = RunResult.exited 0) :
    (_coverage cfg o osenv ("skip_install" :: q) job).trace
        = ((_coverage cfg o osenv q job).trace).drop 2
      ∧ ∀ r ∈ ((_coverage cfg o osenv q job).trace).take 2, isInstallStep r.step := by
  rw [_coverage, _coverage]
  rw [if_pos (List.mem_cons_self "skip_install" q), if_neg hsk]
  rw [runSeq_success o _ (fun s _ => ho s.exe s.args) [],
    runSeq_success o _ (fun s _ => ho s.exe s.args) []]
  have hlen : ((poetryInstallSteps cfg osenv osenv
      (some (if job = "report" ∨ job = "all" then "coverage diff-cover" else "coverage"))
        (cfg.toxCalls || cfg.inCI) true false).map
      (fun s => (⟨s, RunResult.exited 0⟩ : OutcomeRecord))).length = 2 := by
    rw [List.length_map, poetryInstallSteps_length]
  have hinst : ∀ r ∈ (poetryInstallSteps cfg osenv osenv
      (some (if job = "report" ∨ job = "all" then "coverage diff-cover" else "coverage"))
        (cfg.toxCalls || cfg.inCI) true false).map
      (fun s => (⟨s, RunResult.exited 0⟩ : OutcomeRecord)),
      isInstallStep r.step := by
    intro r hr
    simp only [List.mem_map] at hr
    obtain ⟨s, hs, rfl⟩ := hr
    exact poetryInstallSteps_install cfg osenv osenv _ _ _ _ s hs
  by_cases hjob : job = "report" ∨ job = "all"
  · rw [if_pos hjob, if_pos hjob]
    simp only [List.nil_append, List.map_append, ho, execute_step, ne_eq,
      not_true_eq_false, if_true, if_false, reduceCtorEq, decide_False,
      Bool.false_eq_true, ite_true, ite_false]
    constructor
    · rw [List.append_assoc, List.drop_left' hlen]
    · intro r hr
      rw [List.append_assoc, List.take_left' hlen] at hr
      exact hinst r hr
  · rw [if_neg hjob, if_neg hjob]
    simp only [List.nil_append, List.map_append]
    constructor
    · rw [List.drop_left' hlen]
    · intro r hr
      rw [List.take_left' hlen] at hr
      exact hinst r hr

/-- Skip-flag behaviour of `docs`: the flag has no effect at all, because the
source removes it from the posargs before checking for it. -/
theorem c5_docs (cfg : NoxConfig) (osenv : Env) (q : List String) (o : Oracle)
    (hv : cfg.inVenv = true) (htox : "tox" ∉ q) (hsk : "skip_install" ∉ q) :
    docs cfg o osenv ("skip_install" :: q) = docs cfg o osenv q := by
  have hc1 : ¬((!cfg.inVenv) = true ∨ "tox" ∈ ("skip_install" :: q)) := by
    simp [hv, htox]
  have hc2 : ¬((!cfg.inVenv) = true ∨ "tox" ∈ q) := by simp [hv, htox]
  rw [docs, if_neg hc1, docs, if_neg hc2]
  have hau : ("autobuild" ∈ ("skip_install" :: q)) = ("autobuild" ∈ q) := by simp
  have hab : ("ab" ∈ ("skip_install" :: q)) = ("ab" ∈ q) := by simp
  simp only [hau, hab, List.erase_cons_head, List.erase_of_not_mem hsk]

/-- Skip-flag behaviour of `test_docs`: the flag removes exactly the two
install commands, which open the unflagged trace. -/
theorem c5_test_docs (cfg : NoxConfig) (osenv : Env) (q : List String) (o : Oracle)
    (builder : String)
    (hv : cfg.inVenv = true) (htox : "tox" ∉ q) (hsk : "skip_install" ∉ q)
    (ho : ∀ e a, o e a = RunResult.exited 0) :
    (test_docs cfg o osenv ("skip_install" :: q) builder).trace
        = ((test_docs cfg o osenv q builder).trace).drop 2
      ∧ ∀ r ∈ ((test_docs cfg o osenv q builder).trace).take 2, isInstallStep r.step := by
  have hc1 : ¬((!cfg.inVenv) = true ∨ "tox" ∈ ("skip_install" :: q)) := by
    simp [hv, htox]
  have hc2 : ¬((!cfg.inVenv) = true ∨ "tox" ∈ q) := by simp [hv, htox]
  rw [test_docs, if_neg hc1, test_docs, if_neg hc2]
  dsimp only
  rw [if_pos (List.mem_cons_self "skip_install" q),
    if_pos (List.mem_cons_self "skip_install" q), if_neg hsk, if_neg hsk,
    List.erase_cons_head]
  rw [runSeq_success o _ (fun s _ => ho s.exe s.args) [],
    runSeq_success o _ (fun s _ => ho s.exe s.args) []]
  simp only [toSR, List.nil_append, List.map_append]
  have hlen : ((poetryInstallSteps cfg osenv osenv (some "docs")
      (cfg.toxCalls || cfg.inCI) cfg.toxCalls false).map
      (fun s => (⟨s, RunResult.exited 0⟩ : OutcomeRecord))).length = 2 := by
    rw [List.length_map, poetryInstallSteps_length]
  constructor
  · rw [List.drop_left' hlen]
  · intro r hr
    rw [List.take_left' hlen] at hr
    simp only [List.mem_map] at hr
    obtain ⟨s, hs, rfl⟩ := hr
    exact poetryInstallSteps_install cfg osenv osenv _ _ _ _ s hs

/-- Skip-flag behaviour of `pre_commit`: the flag removes exactly the two
install commands, which open the unflagged trace; the hook steps are
unchanged. -/
theorem c5_pre_commit (cfg : NoxConfig) (osenv : Env) (q : List String) (o : Oracle)
    (i : Bool)
    (hv : cfg.inVenv = true) (htox : "tox" ∉ q) (hsk : "skip_install" ∉ q)
    (ho : ∀ e a, o e a = RunResult.exited 0) :
    (pre_commit cfg o osenv ("skip_install" :: q) i).trace
        = ((pre_commit cfg o osenv q i).trace).drop 2
      ∧ ∀ r ∈ ((pre_commit cfg o osenv q i).trace).take 2, isInstallStep r.step := by
  have hc1 : ¬((!cfg.inVenv) = true ∨ "tox" ∈ ("skip_install" :: q)) := by
    simp [hv, htox]
  have hc2 : ¬((!cfg.inVenv) = true ∨ "tox" ∈ q) := by simp [hv, htox]
  rw [pre_commit, if_neg hc1, pre_commit, if_neg hc2]
  rw [pre_commit_core, pre_commit_core]
  rw [if_pos (List.mem_cons_self "skip_install" q), if_neg hsk]
  rw [runSeq_success o _ (fun s _ => ho s.exe s.args) [],
    runSeq_success o _ (fun s _ => ho s.exe s.args) []]
  have hd : ("diff" ∈ ("skip_install" :: q)) = ("diff" ∈ q) := by simp
  have hnd : ("nodiff" ∈ ("skip_install" :: q)) = ("nodiff" ∈ q) := by simp
  have hps : pyStartsWith "skip_install" "SKIP=" = false := by decide
  have hph : pyStartsWith "skip_install" "HOOKS=" = false := by decide
  have hfs : List.find? (fun a => pyStartsWith a "SKIP=") ("skip_install" :: q)
      = List.find? (fun a => pyStartsWith a "SKIP=") q := by
    simp [List.find?, hps]
  have hfh : List.find? (fun a => pyStartsWith a "HOOKS=") ("skip_install" :: q)
      = List.find? (fun a => pyStartsWith a "HOOKS=") q := by
    simp [List.find?, hph]
  simp only [List.nil_append, List.map_nil, hd, hnd, hfs, hfh, List.erase_cons_head,
    List.erase_of_not_mem hsk]
  rw [hookLoop_spec o _ _ _ (fun h _ => by rw [ho]; simp) _ []]
  rw [hookLoop_spec o _ _ _ (fun h _ => by rw [ho]; simp) _ []]
  simp only [List.nil_append]
  have hlen : ((poetryInstallSteps cfg osenv osenv
      (some "pre-commit testing docs poetry nox")
        (cfg.toxCalls || cfg.inCI) cfg.toxCalls false).map
      (fun s => (⟨s, RunResult.exited 0⟩ : OutcomeRecord))).length = 2 := by
    rw [List.length_map, poetryInstallSteps_length]
  constructor
  · rw [List.drop_left' hlen]
  · intro r hr
    rw [List.take_left' hlen] at hr
    simp only [List.mem_map] at hr
    obtain ⟨s, hs, rfl⟩ := hr
    exact poetryInstallSteps_install cfg osenv osenv _ _ _ _ s hs

/-- Claim C5 (amended): for every embedded task and every raw argument list
(with one occurrence of the flag and all steps succeeding), the install-skip
flag suppresses exactly the dependency-installation commands — the pip
bootstrap and `poetry install` (plus, for the test task when nox is not
driven by tox, the package self-install), i.e. 2 or 3 Steps, not exactly
one — which form a prefix of the sequence, leaving all other Steps unchanged
in order and count; except that in `docs` the flag is removed from the
posargs before it is checked, so it suppresses nothing there (count 0). -/
theorem claimC5_amended (t : NoxTask) (cfg : NoxConfig) (osenv : Env) (q : List String)
    (i : Bool) (o : Oracle)
    (hv : cfg.inVenv = true) (htox : "tox" ∉ q) (hsk : "skip_install" ∉ q)
    (ho : ∀ e a, o e a = RunResult.exited 0) :
    (invoke t cfg o osenv ("skip_install" :: q) i).trace
        = ((invoke t cfg o osenv q i).trace).drop (installCount t cfg)
      ∧ ∀ r ∈ ((invoke t cfg o osenv q i).trace).take (installCount t cfg),
          isInstallStep r.step := by
  have hc1 : ¬((!cfg.inVenv) = true ∨ "tox" ∈ ("skip_install" :: q)) := by
    simp [hv, htox]
  have hc2 : ¬((!cfg.inVenv) = true ∨ "tox" ∈ q) := by simp [hv, htox]
  cases t with
  | package =>
    simp only [invoke, installCount]
    exact c5_package cfg osenv q o hv htox hsk ho
  | test_code =>
    simp only [invoke, installCount]
    exact c5_test_code cfg osenv q o hv htox hsk ho
  | coverage_merge =>
    simp only [invoke, installCount]
    rw [coverage_merge, if_neg hc1, coverage_merge, if_neg hc2]
    exact c5_coverage cfg osenv q o "merge" hsk ho
  | coverage_report =>
    simp only [invoke, installCount]
    rw [coverage_report, if_neg hc1, coverage_report, if_neg hc2]
    exact c5_coverage cfg osenv q o "report" hsk ho
  | coverage =>
    simp only [invoke, installCount]
    rw [coverage, if_neg hc1, coverage, if_neg hc2]
    exact c5_coverage cfg osenv q o "all" hsk ho
  | pre_commit =>
    simp only [invoke, installCount]
    exact c5_pre_commit cfg osenv q o i hv htox hsk ho
  | docs =>
    simp only [invoke, installCount]
    rw [c5_docs cfg osenv q o hv htox hsk]
    simp
  | test_docs b =>
    simp only [invoke, installCount]
    exact c5_test_docs cfg osenv q o b hv htox hsk ho

theorem claimC5_amended_witness :
    (invoke NoxTask.package cfg0 oAll [] ["skip_install"] false).trace
        = ((invoke NoxTask.package cfg0 oAll [] [] false).trace).drop
            (installCount NoxTask.package cfg0)
      ∧ (invoke NoxTask.docs cfg0 oAll [] ["skip_install"] false).trace
          = ((invoke NoxTask.docs cfg0 oAll [] [] false).trace).drop
              (installCount NoxTask.docs cfg0) :=
  ⟨(claimC5_amended NoxTask.package cfg0 [] [] false oAll rfl (by decide) (by decide)
      (fun _ _ => rfl)).1,
    (claimC5_amended NoxTask.docs cfg0 [] [] false oAll rfl (by decide) (by decide)
      (fun _ _ => rfl)).1⟩
